import Mathlib

/-!
Shallow embedding of `folly::IoUringBackend`
(`src/folly/experimental/io/IoUringBackend.h`).

The header defines the operation descriptors (`IoSqe` and its subclasses)
inline; those are translated directly.  The bodies of `FdRegistry::alloc`,
`FdRegistry::free`, `queueRead` and the completion-drain loop live in a
`.cpp` file / base class that is not part of the sources, so those are
modelled from the specification (each such definition says so in its doc
comment).

Submission entries are modelled as a record of the fields the liburing
`io_uring_prep_*` helpers write: the operation (opcode plus the parameters
of that opcode), the `flags` byte, and the `user_data` tag.  Addresses
(buffer pointers, `msghdr` pointers, descriptor self-addresses) are
modelled as natural numbers.
-/

namespace IoUring

/-- Linux `MSG_TRUNC` receive flag (0x20). -/
def MSG_TRUNC : Nat := 32

/-- liburing `IOSQE_FIXED_FILE` submission-entry flag bit (1 << 0). -/
def IOSQE_FIXED_FILE : Nat := 1

/-- A `struct iovec`: base address and length in bytes. -/
structure Iovec where
  iov_base : Nat
  iov_len : Nat
deriving DecidableEq

instance : Inhabited Iovec := ⟨⟨0, 0⟩⟩

/-- The operation written into a submission entry by a liburing
`io_uring_prep_*` helper: the opcode together with that opcode's
parameters.  The first `Int` argument of the file operations is the fd
(or, on the fixed-file path, the registered slot index). -/
inductive Op where
  | nop : Op
  | pollAdd (fd : Int) (events : Nat) : Op
  | read (fd : Int) (bufBase bufLen : Nat) (offset : Int) : Op
  | write (fd : Int) (bufBase bufLen : Nat) (offset : Int) : Op
  | readv (fd : Int) (iovs : List Iovec) (offset : Int) : Op
  | writev (fd : Int) (iovs : List Iovec) (offset : Int) : Op
  | recvmsg (fd : Int) (msg : Nat) (msgFlags : Nat) : Op
  | cancel (target : Nat) (cancelFlags : Nat) : Op
deriving DecidableEq

/-- A populated `struct io_uring_sqe` (the fields this code touches). -/
structure Sqe where
  op : Op := .nop
  flags : Nat := 0
  userData : Nat := 0
deriving DecidableEq

instance : Inhabited Sqe := ⟨{}⟩

/-! The liburing prep helpers all go through `io_uring_prep_rw`, which
overwrites every field of the entry (in particular it zeroes `flags` and
`user_data`), so they are modelled as producing a fresh `Sqe`. -/

def io_uring_prep_poll_add (fd : Int) (events : Nat) : Sqe :=
  { op := .pollAdd fd events }

def io_uring_prep_read (fd : Int) (bufBase bufLen : Nat) (offset : Int) : Sqe :=
  { op := .read fd bufBase bufLen offset }

def io_uring_prep_write (fd : Int) (bufBase bufLen : Nat) (offset : Int) : Sqe :=
  { op := .write fd bufBase bufLen offset }

def io_uring_prep_readv (fd : Int) (iovs : List Iovec) (offset : Int) : Sqe :=
  { op := .readv fd iovs offset }

def io_uring_prep_writev (fd : Int) (iovs : List Iovec) (offset : Int) : Sqe :=
  { op := .writev fd iovs offset }

def io_uring_prep_recvmsg (fd : Int) (msg : Nat) (msgFlags : Nat) : Sqe :=
  { op := .recvmsg fd msg msgFlags }

def io_uring_prep_cancel (target : Nat) (cancelFlags : Nat) : Sqe :=
  { op := .cancel target cancelFlags }

/-- `io_uring_sqe_set_data(sqe, ptr)`: store the tag in `user_data`. -/
def io_uring_sqe_set_data (s : Sqe) (tag : Nat) : Sqe :=
  { s with userData := tag }

/-- `sqe->flags |= IOSQE_FIXED_FILE`. -/
def setFixedFile (s : Sqe) : Sqe :=
  { s with flags := s.flags ||| IOSQE_FIXED_FILE }

/-- `PollIoBackend::FdRegistrationRecord`: a registration-pool slot handed
to a caller, carrying its fixed-file table index `idx_` and the bound fd. -/
structure FdRegistrationRecord where
  idx : Nat
  fd : Int
deriving DecidableEq

/-- `IoUringBackend::FdRegistry`: the fixed-file registration pool.
`files` is the kernel-shared fd table, `slotInUse` marks which slots are
live, `freeList` is the singly-linked free list of slot indices (`free_`),
`inUse` mirrors `inUse_`. -/
structure FdRegistry where
  files : List Int
  slotInUse : List Bool
  freeList : List Nat
  inUse : Nat
deriving DecidableEq

namespace FdRegistry

/-- The freshly constructed registry: `n` slots, none bound, all on the
free list. -/
def init (n : Nat) : FdRegistry :=
  { files := List.replicate n (-1)
    slotInUse := List.replicate n false
    freeList := List.range n
    inUse := 0 }

/-- Modelled from the spec: `FdRegistry::alloc` (the body lives in the
missing `IoUringBackend.cpp`).  "`allocate(fd) -> Slot|null` binds an
unused slot to `fd` in O(1), returning null if the pool is exhausted";
free slots form a singly-linked free list with O(1) push/pop. -/
def alloc (r : FdRegistry) (fd : Int) : Option FdRegistrationRecord × FdRegistry :=
  match r.freeList with
  | [] => (none, r)
  | i :: rest =>
      (some { idx := i, fd := fd },
       { files := r.files.set i fd
         slotInUse := r.slotInUse.set i true
         freeList := rest
         inUse := r.inUse + 1 })

/-- Modelled from the spec: `FdRegistry::free` (the body lives in the
missing `IoUringBackend.cpp`).  "`release(slot) -> bool` returns the slot
to the free list; returns false if the slot was already free (double-free
guard)." -/
def free (r : FdRegistry) (rec : FdRegistrationRecord) : Bool × FdRegistry :=
  match r.slotInUse[rec.idx]? with
  | some true =>
      (true,
       { files := r.files.set rec.idx (-1)
         slotInUse := r.slotInUse.set rec.idx false
         freeList := rec.idx :: r.freeList
         inUse := r.inUse - 1 })
  | _ => (false, r)

end FdRegistry

/-- The base-descriptor state a prepare operation reads and writes: the
descriptor's own address (`this`, used as the completion tag) and the
registration record bound to it, if any (`fdRecord_`). -/
structure IoSqeState where
  self : Nat
  fdRecord : Option FdRegistrationRecord := none
deriving DecidableEq

/-- How a prepare path fails on a null entry: `checkFailed` is the fatal
`CHECK(entry)` assertion firing; `nullDeref` is an unchecked write through
the null entry (undefined behavior in the source). -/
inductive PrepError where
  | checkFailed : PrepError
  | nullDeref : PrepError
deriving DecidableEq

namespace IoSqe

/-- The block repeated in each prepare method:
`if (registerFd && !fdRecord_) { fdRecord_ = backend_->registerFd(fd); }`
where `registerFd` delegates to `fdRegistry_.alloc(fd)`. -/
def tryRegister (st : IoSqeState) (reg : FdRegistry) (fd : Int)
    (registerFd : Bool) : IoSqeState × FdRegistry :=
  match registerFd, st.fdRecord with
  | true, none =>
      let p := reg.alloc fd
      ({ st with fdRecord := p.1 }, p.2)
  | _, _ => (st, reg)

/-- `IoSqe::prepPollAdd`. -/
def prepPollAdd (st : IoSqeState) (reg : FdRegistry) (entry : Option Sqe)
    (fd : Int) (events : Nat) (registerFd : Bool) :
    Except PrepError (Sqe × IoSqeState × FdRegistry) :=
  match entry with
  | none => .error .checkFailed
  | some _ =>
      let p := tryRegister st reg fd registerFd
      match p.1.fdRecord with
      | some rec =>
          .ok (io_uring_sqe_set_data
                 (setFixedFile (io_uring_prep_poll_add (rec.idx : Int) events))
                 p.1.self,
               p.1, p.2)
      | none =>
          .ok (io_uring_sqe_set_data (io_uring_prep_poll_add fd events) p.1.self,
               p.1, p.2)

/-- `IoSqe::prepRead`. -/
def prepRead (st : IoSqeState) (reg : FdRegistry) (entry : Option Sqe)
    (fd : Int) (iov : Iovec) (offset : Int) (registerFd : Bool) :
    Except PrepError (Sqe × IoSqeState × FdRegistry) :=
  match entry with
  | none => .error .checkFailed
  | some _ =>
      let p := tryRegister st reg fd registerFd
      match p.1.fdRecord with
      | some rec =>
          .ok (io_uring_sqe_set_data
                 (setFixedFile
                   (io_uring_prep_read (rec.idx : Int) iov.iov_base iov.iov_len offset))
                 p.1.self,
               p.1, p.2)
      | none =>
          .ok (io_uring_sqe_set_data
                 (io_uring_prep_read fd iov.iov_base iov.iov_len offset) p.1.self,
               p.1, p.2)

/-- `IoSqe::prepWrite`. -/
def prepWrite (st : IoSqeState) (reg : FdRegistry) (entry : Option Sqe)
    (fd : Int) (iov : Iovec) (offset : Int) (registerFd : Bool) :
    Except PrepError (Sqe × IoSqeState × FdRegistry) :=
  match entry with
  | none => .error .checkFailed
  | some _ =>
      let p := tryRegister st reg fd registerFd
      match p.1.fdRecord with
      | some rec =>
          .ok (io_uring_sqe_set_data
                 (setFixedFile
                   (io_uring_prep_write (rec.idx : Int) iov.iov_base iov.iov_len offset))
                 p.1.self,
               p.1, p.2)
      | none =>
          .ok (io_uring_sqe_set_data
                 (io_uring_prep_write fd iov.iov_base iov.iov_len offset) p.1.self,
               p.1, p.2)

/-- `IoSqe::prepRecvmsg`.  Note the source passes `MSG_TRUNC` on the
fixed-file branch and `0` on the raw-fd branch. -/
def prepRecvmsg (st : IoSqeState) (reg : FdRegistry) (entry : Option Sqe)
    (fd : Int) (msg : Nat) (registerFd : Bool) :
    Except PrepError (Sqe × IoSqeState × FdRegistry) :=
  match entry with
  | none => .error .checkFailed
  | some _ =>
      let p := tryRegister st reg fd registerFd
      match p.1.fdRecord with
      | some rec =>
          .ok (io_uring_sqe_set_data
                 (setFixedFile (io_uring_prep_recvmsg (rec.idx : Int) msg MSG_TRUNC))
                 p.1.self,
               p.1, p.2)
      | none =>
          .ok (io_uring_sqe_set_data (io_uring_prep_recvmsg fd msg 0) p.1.self,
               p.1, p.2)

/-- `IoSqe::prepCancel`: `CHECK(sqe); io_uring_prep_cancel(sqe, user_data, 0);
io_uring_sqe_set_data(sqe, this);`. -/
def prepCancel (self : Nat) (entry : Option Sqe) (user_data : Nat) :
    Except PrepError Sqe :=
  match entry with
  | none => .error .checkFailed
  | some _ => .ok (io_uring_sqe_set_data (io_uring_prep_cancel user_data 0) self)

end IoSqe

/-- `ReadWriteIoSqe`: a read/write descriptor holding the fd, the iovec
list `iov_`, the byte offset and the result `res_` (the stored callback
`cb_` is represented by the invocation log of `BackendState`). -/
structure ReadWriteIoSqe where
  st : IoSqeState
  fd : Int := -1
  res : Int := -1
  iov : List Iovec
  offset : Int
deriving DecidableEq

namespace ReadWriteIoSqe

/-- The single-iovec constructor: `iov_(iov, iov + 1)`. -/
def mkSingle (self : Nat) (fd : Int) (iov : Iovec) (offset : Int) :
    ReadWriteIoSqe :=
  { st := { self := self }, fd := fd, iov := [iov], offset := offset }

/-- The vectored constructor: `iov_(iov)`. -/
def mkVec (self : Nat) (fd : Int) (iovs : List Iovec) (offset : Int) :
    ReadWriteIoSqe :=
  { st := { self := self }, fd := fd, iov := iovs, offset := offset }

/-- `ReadWriteIoSqe::processActive`: `cb_(res_);` — the value passed to the
stored callback. -/
def processActive (d : ReadWriteIoSqe) : Int := d.res

end ReadWriteIoSqe

/-- `kNumInlineIoVec` as declared in `ReadWriteIoSqe`. -/
def kNumInlineIoVec : Nat := 4

/-- Modelled from the spec: the default `RequestedMaxInline` template
argument of `folly::small_vector` (defined in `folly/small_vector.h`,
which is not under `src/`) is 1. -/
def smallVectorDefaultMaxInline : Nat := 1

/-- The inline capacity of `ReadWriteIoSqe::iov_`.  The member is declared
`folly::small_vector<struct iovec> iov_;` — the capacity template argument
is omitted, so the default applies and `kNumInlineIoVec` is unused. -/
def iovInlineCapacity : Nat := smallVectorDefaultMaxInline

/-- Whether an iovec list of length `n` spills to the heap: a
`small_vector` heap-allocates exactly when its size exceeds its inline
capacity. -/
def iovNeedsHeapAlloc (n : Nat) : Bool := iovInlineCapacity < n

/-- `ReadIoSqe::processSubmit`: `prepRead(entry, fd_, iov_.data(), offset_,
false)`.  `iov_.data()` points at the first iovec. -/
def ReadIoSqe.processSubmit (d : ReadWriteIoSqe) (reg : FdRegistry)
    (entry : Option Sqe) : Except PrepError (Sqe × IoSqeState × FdRegistry) :=
  IoSqe.prepRead d.st reg entry d.fd d.iov.headI d.offset false

/-- `WriteIoSqe::processSubmit`: `prepWrite(entry, fd_, iov_.data(),
offset_, false)`. -/
def WriteIoSqe.processSubmit (d : ReadWriteIoSqe) (reg : FdRegistry)
    (entry : Option Sqe) : Except PrepError (Sqe × IoSqeState × FdRegistry) :=
  IoSqe.prepWrite d.st reg entry d.fd d.iov.headI d.offset false

/-- `ReadvIoSqe::processSubmit`: casts the entry and calls
`io_uring_prep_readv(sqe, fd_, iov_.data(), iov_.size(), offset_)` with NO
`CHECK(entry)` — a null entry is dereferenced, not checked. -/
def ReadvIoSqe.processSubmit (d : ReadWriteIoSqe) (entry : Option Sqe) :
    Except PrepError Sqe :=
  match entry with
  | none => .error .nullDeref
  | some _ =>
      .ok (io_uring_sqe_set_data (io_uring_prep_readv d.fd d.iov d.offset)
             d.st.self)

/-- `WritevIoSqe::processSubmit`: likewise with no `CHECK(entry)`. -/
def WritevIoSqe.processSubmit (d : ReadWriteIoSqe) (entry : Option Sqe) :
    Except PrepError Sqe :=
  match entry with
  | none => .error .nullDeref
  | some _ =>
      .ok (io_uring_sqe_set_data (io_uring_prep_writev d.fd d.iov d.offset)
             d.st.self)

/-- The backend state visible to the claims: the registration pool, the
submitted-but-not-completed descriptors, the prepared entries awaiting
flush, and the log of callback invocations `(tag, result)`. -/
structure BackendState where
  registry : FdRegistry
  inFlight : List ReadWriteIoSqe
  pending : List Sqe
  log : List (Nat × Int)
deriving DecidableEq

namespace IoUringBackend

/-- Modelled from the spec: `queueRead` "constructs a Read descriptor,
requests an entry from the Ring Driver, calls `prepare`, and leaves it
queued for the next flush cycle".  The entry preparation itself is the
source's `ReadIoSqe::processSubmit`; `tag` stands for the new descriptor's
address. -/
def queueRead (bs : BackendState) (tag : Nat) (fd : Int) (buf : Nat)
    (nbytes : Nat) (offset : Int) : BackendState :=
  let d := ReadWriteIoSqe.mkSingle tag fd ⟨buf, nbytes⟩ offset
  match ReadIoSqe.processSubmit d bs.registry (some default) with
  | .ok (sqe, st, reg) =>
      { bs with
        registry := reg
        inFlight := bs.inFlight ++ [{ d with st := st }]
        pending := bs.pending ++ [sqe] }
  | .error _ => bs

/-- Modelled from the spec: drain one completion `(tag, res)`: "resolves
`tag` back to its Operation Descriptor and calls `onComplete`", which
"stores the signed result and invokes the stored callback exactly once,
then the descriptor becomes eligible for destruction".  A tag with no live
descriptor resolves to nothing. -/
def processCompletion (bs : BackendState) (c : Nat × Int) : BackendState :=
  match bs.inFlight.find? (fun d => d.st.self == c.1) with
  | some d =>
      { bs with
        inFlight := bs.inFlight.filter (fun e => !(e.st.self == c.1))
        log := bs.log ++ [(c.1, ReadWriteIoSqe.processActive { d with res := c.2 })] }
  | none => bs

/-- Modelled from the spec: `drainCompletions` reads the completions
currently visible, in order, dispatching each to its descriptor. -/
def drainCompletions (bs : BackendState) (cs : List (Nat × Int)) :
    BackendState :=
  cs.foldl processCompletion bs

/-- Modelled from the spec: `cancelOne` "obtains an entry, prepares a
Cancel descriptor addressed at `targetTag`, submits it; does not itself
resolve synchronously".  `self` is the cancel descriptor's own address.
If the prepared entry is unavailable, nothing changes. -/
def cancelOne (bs : BackendState) (self : Nat) (targetTag : Nat) :
    BackendState :=
  match IoSqe.prepCancel self (some default) targetTag with
  | .ok sqe => { bs with pending := bs.pending ++ [sqe] }
  | .error _ => bs

end IoUringBackend

instance {ε α : Type} [DecidableEq ε] [DecidableEq α] :
    DecidableEq (Except ε α) := fun x y =>
  match x, y with
  | .ok a, .ok b =>
      if h : a = b then .isTrue (by rw [h])
      else .isFalse (fun hc => h (Except.ok.inj hc))
  | .error a, .error b =>
      if h : a = b then .isTrue (by rw [h])
      else .isFalse (fun hc => h (Except.error.inj hc))
  | .ok _, .error _ => .isFalse (fun hc => Except.noConfusion hc)
  | .error _, .ok _ => .isFalse (fun hc => Except.noConfusion hc)

/-! Projections used to state theorems about prepare results. -/

/-- The entry of a successful three-component prepare result. -/
def prepOkSqe : Except PrepError (Sqe × IoSqeState × FdRegistry) → Option Sqe
  | .ok (s, _, _) => some s
  | .error _ => none

/-- The entry of a successful entry-only prepare result. -/
def okSqe : Except PrepError Sqe → Option Sqe
  | .ok s => some s
  | .error _ => none

/-- The `user_data` tag of a successful prepare result. -/
def prepOkTag (x : Except PrepError (Sqe × IoSqeState × FdRegistry)) :
    Option Nat :=
  (prepOkSqe x).map Sqe.userData

/-- The `user_data` tag of a successful entry-only prepare result. -/
def okTag (x : Except PrepError Sqe) : Option Nat :=
  (okSqe x).map Sqe.userData

/-- The `flags` byte of a successful prepare result. -/
def prepOkFlags (x : Except PrepError (Sqe × IoSqeState × FdRegistry)) :
    Option Nat :=
  (prepOkSqe x).map Sqe.flags

/-- An operation with its target fd/slot erased: the parameters the kernel
operation receives apart from the file target. -/
inductive OpParams where
  | nop : OpParams
  | pollAdd (events : Nat) : OpParams
  | read (bufBase bufLen : Nat) (offset : Int) : OpParams
  | write (bufBase bufLen : Nat) (offset : Int) : OpParams
  | readv (iovs : List Iovec) (offset : Int) : OpParams
  | writev (iovs : List Iovec) (offset : Int) : OpParams
  | recvmsg (msg : Nat) (msgFlags : Nat) : OpParams
  | cancel (target : Nat) (cancelFlags : Nat) : OpParams
deriving DecidableEq

/-- Erase the file target of an operation, keeping every other parameter. -/
def Op.params : Op → OpParams
  | .nop => .nop
  | .pollAdd _ events => .pollAdd events
  | .read _ b l o => .read b l o
  | .write _ b l o => .write b l o
  | .readv _ iovs o => .readv iovs o
  | .writev _ iovs o => .writev iovs o
  | .recvmsg _ m f => .recvmsg m f
  | .cancel t f => .cancel t f

/-- The target-erased parameters of a successful prepare result. -/
def prepOkParams (x : Except PrepError (Sqe × IoSqeState × FdRegistry)) :
    Option OpParams :=
  (prepOkSqe x).map (fun s => s.op.params)

/-! Iterated allocation, for the pool-exhaustion claim. -/

/-- Run `FdRegistry.alloc` once per fd in `fds`, collecting the results. -/
def allocResults : FdRegistry → List Int →
    List (Option FdRegistrationRecord) × FdRegistry
  | r, [] => ([], r)
  | r, fd :: fds =>
      let p := r.alloc fd
      let q := allocResults p.2 fds
      (p.1 :: q.1, q.2)

/-- The slot index of an allocation result. -/
def allocIdx (x : Option FdRegistrationRecord) : Option Nat :=
  x.map FdRegistrationRecord.idx

/-- Well-formedness of the registration pool: the free list holds distinct
in-range indices and every listed slot is marked not in use. -/
def FdRegistry.wf (r : FdRegistry) : Prop :=
  r.freeList.Nodup ∧
  (∀ i ∈ r.freeList, i < r.slotInUse.length) ∧
  (∀ i ∈ r.freeList, r.slotInUse[i]? = some false)

/-! Closed forms of the prepare paths, used by several theorems below. -/

theorem tryRegister_self (st : IoSqeState) (reg : FdRegistry) (fd : Int)
    (b : Bool) : (IoSqe.tryRegister st reg fd b).1.self = st.self := by
  obtain ⟨s, fr⟩ := st
  cases b <;> cases fr <;> rfl

theorem prepPollAdd_bound (tag : Nat) (rec : FdRegistrationRecord)
    (reg : FdRegistry) (e : Sqe) (fd : Int) (events : Nat) (b : Bool) :
    IoSqe.prepPollAdd ⟨tag, some rec⟩ reg (some e) fd events b =
      .ok ({ op := .pollAdd (rec.idx : Int) events, flags := IOSQE_FIXED_FILE,
             userData := tag },
           ⟨tag, some rec⟩, reg) := by
  cases b <;>
    simp [IoSqe.prepPollAdd, IoSqe.tryRegister, io_uring_prep_poll_add,
      setFixedFile, io_uring_sqe_set_data, IOSQE_FIXED_FILE]

theorem prepPollAdd_fallback (tag : Nat) (reg reg' : FdRegistry) (e : Sqe)
    (fd : Int) (events : Nat) (h : reg.alloc fd = (none, reg')) :
    IoSqe.prepPollAdd ⟨tag, none⟩ reg (some e) fd events true =
      .ok ({ op := .pollAdd fd events, flags := 0, userData := tag },
           ⟨tag, none⟩, reg') := by
  simp [IoSqe.prepPollAdd, IoSqe.tryRegister, h, io_uring_prep_poll_add,
    io_uring_sqe_set_data]

theorem prepPollAdd_registered (tag : Nat) (rec : FdRegistrationRecord)
    (reg reg' : FdRegistry) (e : Sqe) (fd : Int) (events : Nat)
    (h : reg.alloc fd = (some rec, reg')) :
    IoSqe.prepPollAdd ⟨tag, none⟩ reg (some e) fd events true =
      .ok ({ op := .pollAdd (rec.idx : Int) events, flags := IOSQE_FIXED_FILE,
             userData := tag },
           ⟨tag, some rec⟩, reg') := by
  simp [IoSqe.prepPollAdd, IoSqe.tryRegister, h, io_uring_prep_poll_add,
    setFixedFile, io_uring_sqe_set_data, IOSQE_FIXED_FILE]

theorem prepPollAdd_raw (tag : Nat) (reg : FdRegistry) (e : Sqe) (fd : Int)
    (events : Nat) :
    IoSqe.prepPollAdd ⟨tag, none⟩ reg (some e) fd events false =
      .ok ({ op := .pollAdd fd events, flags := 0, userData := tag },
           ⟨tag, none⟩, reg) := by
  simp [IoSqe.prepPollAdd, IoSqe.tryRegister, io_uring_prep_poll_add,
    io_uring_sqe_set_data]

theorem prepRead_bound (tag : Nat) (rec : FdRegistrationRecord)
    (reg : FdRegistry) (e : Sqe) (fd : Int) (iov : Iovec) (offset : Int)
    (b : Bool) :
    IoSqe.prepRead ⟨tag, some rec⟩ reg (some e) fd iov offset b =
      .ok ({ op := .read (rec.idx : Int) iov.iov_base iov.iov_len offset,
             flags := IOSQE_FIXED_FILE, userData := tag },
           ⟨tag, some rec⟩, reg) := by
  cases b <;>
    simp [IoSqe.prepRead, IoSqe.tryRegister, io_uring_prep_read, setFixedFile,
      io_uring_sqe_set_data, IOSQE_FIXED_FILE]

theorem prepRead_fallback (tag : Nat) (reg reg' : FdRegistry) (e : Sqe)
    (fd : Int) (iov : Iovec) (offset : Int) (h : reg.alloc fd = (none, reg')) :
    IoSqe.prepRead ⟨tag, none⟩ reg (some e) fd iov offset true =
      .ok ({ op := .read fd iov.iov_base iov.iov_len offset, flags := 0,
             userData := tag },
           ⟨tag, none⟩, reg') := by
  simp [IoSqe.prepRead, IoSqe.tryRegister, h, io_uring_prep_read,
    io_uring_sqe_set_data]

theorem prepRead_registered (tag : Nat) (rec : FdRegistrationRecord)
    (reg reg' : FdRegistry) (e : Sqe) (fd : Int) (iov : Iovec) (offset : Int)
    (h : reg.alloc fd = (some rec, reg')) :
    IoSqe.prepRead ⟨tag, none⟩ reg (some e) fd iov offset true =
      .ok ({ op := .read (rec.idx : Int) iov.iov_base iov.iov_len offset,
             flags := IOSQE_FIXED_FILE, userData := tag },
           ⟨tag, some rec⟩, reg') := by
  simp [IoSqe.prepRead, IoSqe.tryRegister, h, io_uring_prep_read, setFixedFile,
    io_uring_sqe_set_data, IOSQE_FIXED_FILE]

theorem prepRead_raw (tag : Nat) (reg : FdRegistry) (e : Sqe) (fd : Int)
    (iov : Iovec) (offset : Int) :
    IoSqe.prepRead ⟨tag, none⟩ reg (some e) fd iov offset false =
      .ok ({ op := .read fd iov.iov_base iov.iov_len offset, flags := 0,
             userData := tag },
           ⟨tag, none⟩, reg) := by
  simp [IoSqe.prepRead, IoSqe.tryRegister, io_uring_prep_read,
    io_uring_sqe_set_data]

theorem prepWrite_bound (tag : Nat) (rec : FdRegistrationRecord)
    (reg : FdRegistry) (e : Sqe) (fd : Int) (iov : Iovec) (offset : Int)
    (b : Bool) :
    IoSqe.prepWrite ⟨tag, some rec⟩ reg (some e) fd iov offset b =
      .ok ({ op := .write (rec.idx : Int) iov.iov_base iov.iov_len offset,
             flags := IOSQE_FIXED_FILE, userData := tag },
           ⟨tag, some rec⟩, reg) := by
  cases b <;>
    simp [IoSqe.prepWrite, IoSqe.tryRegister, io_uring_prep_write, setFixedFile,
      io_uring_sqe_set_data, IOSQE_FIXED_FILE]

theorem prepWrite_fallback (tag : Nat) (reg reg' : FdRegistry) (e : Sqe)
    (fd : Int) (iov : Iovec) (offset : Int) (h : reg.alloc fd = (none, reg')) :
    IoSqe.prepWrite ⟨tag, none⟩ reg (some e) fd iov offset true =
      .ok ({ op := .write fd iov.iov_base iov.iov_len offset, flags := 0,
             userData := tag },
           ⟨tag, none⟩, reg') := by
  simp [IoSqe.prepWrite, IoSqe.tryRegister, h, io_uring_prep_write,
    io_uring_sqe_set_data]

theorem prepWrite_registered (tag : Nat) (rec : FdRegistrationRecord)
    (reg reg' : FdRegistry) (e : Sqe) (fd : Int) (iov : Iovec) (offset : Int)
    (h : reg.alloc fd = (some rec, reg')) :
    IoSqe.prepWrite ⟨tag, none⟩ reg (some e) fd iov offset true =
      .ok ({ op := .write (rec.idx : Int) iov.iov_base iov.iov_len offset,
             flags := IOSQE_FIXED_FILE, userData := tag },
           ⟨tag, some rec⟩, reg') := by
  simp [IoSqe.prepWrite, IoSqe.tryRegister, h, io_uring_prep_write, setFixedFile,
    io_uring_sqe_set_data, IOSQE_FIXED_FILE]

theorem prepWrite_raw (tag : Nat) (reg : FdRegistry) (e : Sqe) (fd : Int)
    (iov : Iovec) (offset : Int) :
    IoSqe.prepWrite ⟨tag, none⟩ reg (some e) fd iov offset false =
      .ok ({ op := .write fd iov.iov_base iov.iov_len offset, flags := 0,
             userData := tag },
           ⟨tag, none⟩, reg) := by
  simp [IoSqe.prepWrite, IoSqe.tryRegister, io_uring_prep_write,
    io_uring_sqe_set_data]

theorem prepRecvmsg_bound (tag : Nat) (rec : FdRegistrationRecord)
    (reg : FdRegistry) (e : Sqe) (fd : Int) (msg : Nat) (b : Bool) :
    IoSqe.prepRecvmsg ⟨tag, some rec⟩ reg (some e) fd msg b =
      .ok ({ op := .recvmsg (rec.idx : Int) msg MSG_TRUNC,
             flags := IOSQE_FIXED_FILE, userData := tag },
           ⟨tag, some rec⟩, reg) := by
  cases b <;>
    simp [IoSqe.prepRecvmsg, IoSqe.tryRegister, io_uring_prep_recvmsg,
      setFixedFile, io_uring_sqe_set_data, IOSQE_FIXED_FILE]

theorem prepRecvmsg_fallback (tag : Nat) (reg reg' : FdRegistry) (e : Sqe)
    (fd : Int) (msg : Nat) (h : reg.alloc fd = (none, reg')) :
    IoSqe.prepRecvmsg ⟨tag, none⟩ reg (some e) fd msg true =
      .ok ({ op := .recvmsg fd msg 0, flags := 0, userData := tag },
           ⟨tag, none⟩, reg') := by
  simp [IoSqe.prepRecvmsg, IoSqe.tryRegister, h, io_uring_prep_recvmsg,
    io_uring_sqe_set_data]

theorem prepRecvmsg_registered (tag : Nat) (rec : FdRegistrationRecord)
    (reg reg' : FdRegistry) (e : Sqe) (fd : Int) (msg : Nat)
    (h : reg.alloc fd = (some rec, reg')) :
    IoSqe.prepRecvmsg ⟨tag, none⟩ reg (some e) fd msg true =
      .ok ({ op := .recvmsg (rec.idx : Int) msg MSG_TRUNC,
             flags := IOSQE_FIXED_FILE, userData := tag },
           ⟨tag, some rec⟩, reg') := by
  simp [IoSqe.prepRecvmsg, IoSqe.tryRegister, h, io_uring_prep_recvmsg,
    setFixedFile, io_uring_sqe_set_data, IOSQE_FIXED_FILE]

theorem prepRecvmsg_raw (tag : Nat) (reg : FdRegistry) (e : Sqe) (fd : Int)
    (msg : Nat) :
    IoSqe.prepRecvmsg ⟨tag, none⟩ reg (some e) fd msg false =
      .ok ({ op := .recvmsg fd msg 0, flags := 0, userData := tag },
           ⟨tag, none⟩, reg) := by
  simp [IoSqe.prepRecvmsg, IoSqe.tryRegister, io_uring_prep_recvmsg,
    io_uring_sqe_set_data]

theorem prepCancel_some (self : Nat) (e : Sqe) (target : Nat) :
    IoSqe.prepCancel self (some e) target =
      .ok { op := .cancel target 0, flags := 0, userData := self } := rfl

theorem readvSubmit_some (d : ReadWriteIoSqe) (e : Sqe) :
    ReadvIoSqe.processSubmit d (some e) =
      .ok { op := .readv d.fd d.iov d.offset, flags := 0, userData := d.st.self } :=
  rfl

theorem writevSubmit_some (d : ReadWriteIoSqe) (e : Sqe) :
    WritevIoSqe.processSubmit d (some e) =
      .ok { op := .writev d.fd d.iov d.offset, flags := 0, userData := d.st.self } :=
  rfl

/-- C1: for each prepare operation (`prepPollAdd`, `prepRead`, `prepWrite`,
`prepRecvmsg`), when `registerFixed` is requested and no slot is bound, a
slot is requested from the registration pool; if the pool returns null the
entry is prepared on the raw fd without `IOSQE_FIXED_FILE` (silent
fallback), and if a slot is obtained or already bound the entry targets the
slot index with `IOSQE_FIXED_FILE` set. -/
theorem C1_registerFixed_pool_fallback :
    (∀ (tag : Nat) (reg reg' : FdRegistry) (e : Sqe) (fd : Int) (events : Nat),
        reg.alloc fd = (none, reg') →
        IoSqe.prepPollAdd ⟨tag, none⟩ reg (some e) fd events true =
          .ok ({ op := .pollAdd fd events, flags := 0, userData := tag },
               ⟨tag, none⟩, reg'))
  ∧ (∀ (tag : Nat) (reg reg' : FdRegistry) (e : Sqe) (fd : Int) (iov : Iovec)
        (offset : Int), reg.alloc fd = (none, reg') →
        IoSqe.prepRead ⟨tag, none⟩ reg (some e) fd iov offset true =
          .ok ({ op := .read fd iov.iov_base iov.iov_len offset, flags := 0,
                 userData := tag },
               ⟨tag, none⟩, reg'))
  ∧ (∀ (tag : Nat) (reg reg' : FdRegistry) (e : Sqe) (fd : Int) (iov : Iovec)
        (offset : Int), reg.alloc fd = (none, reg') →
        IoSqe.prepWrite ⟨tag, none⟩ reg (some e) fd iov offset true =
          .ok ({ op := .write fd iov.iov_base iov.iov_len offset, flags := 0,
                 userData := tag },
               ⟨tag, none⟩, reg'))
  ∧ (∀ (tag : Nat) (reg reg' : FdRegistry) (e : Sqe) (fd : Int) (msg : Nat),
        reg.alloc fd = (none, reg') →
        IoSqe.prepRecvmsg ⟨tag, none⟩ reg (some e) fd msg true =
          .ok ({ op := .recvmsg fd msg 0, flags := 0, userData := tag },
               ⟨tag, none⟩, reg'))
  ∧ (∀ (tag : Nat) (rec : FdRegistrationRecord) (reg reg' : FdRegistry)
        (e : Sqe) (fd : Int) (events : Nat),
        reg.alloc fd = (some rec, reg') →
        IoSqe.prepPollAdd ⟨tag, none⟩ reg (some e) fd events true =
          .ok ({ op := .pollAdd (rec.idx : Int) events,
                 flags := IOSQE_FIXED_FILE, userData := tag },
               ⟨tag, some rec⟩, reg'))
  ∧ (∀ (tag : Nat) (rec : FdRegistrationRecord) (reg reg' : FdRegistry)
        (e : Sqe) (fd : Int) (iov : Iovec) (offset : Int),
        reg.alloc fd = (some rec, reg') →
        IoSqe.prepRead ⟨tag, none⟩ reg (some e) fd iov offset true =
          .ok ({ op := .read (rec.idx : Int) iov.iov_base iov.iov_len offset,
                 flags := IOSQE_FIXED_FILE, userData := tag },
               ⟨tag, some rec⟩, reg'))
  ∧ (∀ (tag : Nat) (rec : FdRegistrationRecord) (reg reg' : FdRegistry)
        (e : Sqe) (fd : Int) (iov : Iovec) (offset : Int),
        reg.alloc fd = (some rec, reg') →
        IoSqe.prepWrite ⟨tag, none⟩ reg (some e) fd iov offset true =
          .ok ({ op := .write (rec.idx : Int) iov.iov_base iov.iov_len offset,
                 flags := IOSQE_FIXED_FILE, userData := tag },
               ⟨tag, some rec⟩, reg'))
  ∧ (∀ (tag : Nat) (rec : FdRegistrationRecord) (reg reg' : FdRegistry)
        (e : Sqe) (fd : Int) (msg : Nat),
        reg.alloc fd = (some rec, reg') →
        IoSqe.prepRecvmsg ⟨tag, none⟩ reg (some e) fd msg true =
          .ok ({ op := .recvmsg (rec.idx : Int) msg MSG_TRUNC,
                 flags := IOSQE_FIXED_FILE, userData := tag },
               ⟨tag, some rec⟩, reg'))
  ∧ (∀ (tag : Nat) (rec : FdRegistrationRecord) (reg : FdRegistry) (e : Sqe)
        (fd : Int) (events : Nat) (b : Bool),
        IoSqe.prepPollAdd ⟨tag, some rec⟩ reg (some e) fd events b =
          .ok ({ op := .pollAdd (rec.idx : Int) events,
                 flags := IOSQE_FIXED_FILE, userData := tag },
               ⟨tag, some rec⟩, reg))
  ∧ (∀ (tag : Nat) (rec : FdRegistrationRecord) (reg : FdRegistry) (e : Sqe)
        (fd : Int) (iov : Iovec) (offset : Int) (b : Bool),
        IoSqe.prepRead ⟨tag, some rec⟩ reg (some e) fd iov offset b =
          .ok ({ op := .read (rec.idx : Int) iov.iov_base iov.iov_len offset,
                 flags := IOSQE_FIXED_FILE, userData := tag },
               ⟨tag, some rec⟩, reg))
  ∧ (∀ (tag : Nat) (rec : FdRegistrationRecord) (reg : FdRegistry) (e : Sqe)
        (fd : Int) (iov : Iovec) (offset : Int) (b : Bool),
        IoSqe.prepWrite ⟨tag, some rec⟩ reg (some e) fd iov offset b =
          .ok ({ op := .write (rec.idx : Int) iov.iov_base iov.iov_len offset,
                 flags := IOSQE_FIXED_FILE, userData := tag },
               ⟨tag, some rec⟩, reg))
  ∧ (∀ (tag : Nat) (rec : FdRegistrationRecord) (reg : FdRegistry) (e : Sqe)
        (fd : Int) (msg : Nat) (b : Bool),
        IoSqe.prepRecvmsg ⟨tag, some rec⟩ reg (some e) fd msg b =
          .ok ({ op := .recvmsg (rec.idx : Int) msg MSG_TRUNC,
                 flags := IOSQE_FIXED_FILE, userData := tag },
               ⟨tag, some rec⟩, reg)) :=
  ⟨prepPollAdd_fallback, prepRead_fallback, prepWrite_fallback,
   prepRecvmsg_fallback,
   fun tag rec reg reg' e fd events h =>
     prepPollAdd_registered tag rec reg reg' e fd events h,
   fun tag rec reg reg' e fd iov offset h =>
     prepRead_registered tag rec reg reg' e fd iov offset h,
   fun tag rec reg reg' e fd iov offset h =>
     prepWrite_registered tag rec reg reg' e fd iov offset h,
   fun tag rec reg reg' e fd msg h =>
     prepRecvmsg_registered tag rec reg reg' e fd msg h,
   prepPollAdd_bound, prepRead_bound, prepWrite_bound, prepRecvmsg_bound⟩

/-- Witness for C1: a pool of capacity 0 forces the raw-fd fallback for
`prepPollAdd`; a pool of capacity 1 yields slot 0 and the fixed-file path
for `prepRead`. -/
theorem C1_registerFixed_pool_fallback_witness :
    ((FdRegistry.init 0).alloc 3 = (none, FdRegistry.init 0) ∧
     IoSqe.prepPollAdd ⟨7, none⟩ (FdRegistry.init 0) (some default) 3 5 true =
       .ok ({ op := .pollAdd 3 5, flags := 0, userData := 7 },
            ⟨7, none⟩, FdRegistry.init 0)) ∧
    ((FdRegistry.init 1).alloc 3 =
       (some ⟨0, 3⟩,
        { files := [3], slotInUse := [true], freeList := [], inUse := 1 }) ∧
     IoSqe.prepRead ⟨7, none⟩ (FdRegistry.init 1) (some default) 3 ⟨100, 4⟩ 2 true =
       .ok ({ op := .read 0 100 4 2, flags := IOSQE_FIXED_FILE, userData := 7 },
            ⟨7, some ⟨0, 3⟩⟩,
            { files := [3], slotInUse := [true], freeList := [], inUse := 1 })) :=
  ⟨⟨by decide,
    C1_registerFixed_pool_fallback.1 7 (FdRegistry.init 0) (FdRegistry.init 0)
      default 3 5 (by decide)⟩,
   ⟨by decide,
    (C1_registerFixed_pool_fallback.2.2.2.2.2.1) 7 ⟨0, 3⟩ (FdRegistry.init 1)
      { files := [3], slotInUse := [true], freeList := [], inUse := 1 }
      default 3 ⟨100, 4⟩ 2 (by decide)⟩⟩

/-- C2 counterexample: `prepRecvmsg` does NOT pass the same message flags on
both paths — with a bound slot the prepared entry carries `MSG_TRUNC`,
while the raw-fd fallback carries `0`, so the fixed-file and raw-fd entries
differ in an operation parameter beyond the target encoding and the
fixed-file flag. -/
theorem C2_recvmsg_flags_counterexample :
    prepOkParams (IoSqe.prepRecvmsg ⟨7, some ⟨0, 5⟩⟩ (FdRegistry.init 0)
        (some default) 5 100 false) = some (.recvmsg 100 MSG_TRUNC)
  ∧ prepOkParams (IoSqe.prepRecvmsg ⟨7, none⟩ (FdRegistry.init 0)
        (some default) 5 100 false) = some (.recvmsg 100 0)
  ∧ prepOkParams (IoSqe.prepRecvmsg ⟨7, some ⟨0, 5⟩⟩ (FdRegistry.init 0)
        (some default) 5 100 false)
      ≠ prepOkParams (IoSqe.prepRecvmsg ⟨7, none⟩ (FdRegistry.init 0)
        (some default) 5 100 false) := by
  decide

/-- C2 (amended): for `prepPollAdd`, `prepRead` and `prepWrite` the entry
prepared via the fixed-file path agrees with the raw-fd fallback entry in
every operation parameter except the target encoding and the fixed-file
flag (same target-erased parameters, same user-data tag, flags
`IOSQE_FIXED_FILE` versus `0`); `prepRecvmsg` additionally differs in the
message flags, passing `MSG_TRUNC` on the fixed-file path and `0` on the
raw-fd path. -/
theorem C2_fixed_vs_raw_entries (tag : Nat) (rec : FdRegistrationRecord)
    (reg : FdRegistry) (e : Sqe) (fd : Int) (iov : Iovec) (offset : Int)
    (events msg : Nat) (b : Bool) :
    prepOkParams (IoSqe.prepPollAdd ⟨tag, some rec⟩ reg (some e) fd events b)
      = prepOkParams (IoSqe.prepPollAdd ⟨tag, none⟩ reg (some e) fd events false)
  ∧ prepOkTag (IoSqe.prepPollAdd ⟨tag, some rec⟩ reg (some e) fd events b)
      = prepOkTag (IoSqe.prepPollAdd ⟨tag, none⟩ reg (some e) fd events false)
  ∧ prepOkFlags (IoSqe.prepPollAdd ⟨tag, some rec⟩ reg (some e) fd events b)
      = some IOSQE_FIXED_FILE
  ∧ prepOkFlags (IoSqe.prepPollAdd ⟨tag, none⟩ reg (some e) fd events false)
      = some 0
  ∧ prepOkParams (IoSqe.prepRead ⟨tag, some rec⟩ reg (some e) fd iov offset b)
      = prepOkParams (IoSqe.prepRead ⟨tag, none⟩ reg (some e) fd iov offset false)
  ∧ prepOkTag (IoSqe.prepRead ⟨tag, some rec⟩ reg (some e) fd iov offset b)
      = prepOkTag (IoSqe.prepRead ⟨tag, none⟩ reg (some e) fd iov offset false)
  ∧ prepOkFlags (IoSqe.prepRead ⟨tag, some rec⟩ reg (some e) fd iov offset b)
      = some IOSQE_FIXED_FILE
  ∧ prepOkFlags (IoSqe.prepRead ⟨tag, none⟩ reg (some e) fd iov offset false)
      = some 0
  ∧ prepOkParams (IoSqe.prepWrite ⟨tag, some rec⟩ reg (some e) fd iov offset b)
      = prepOkParams (IoSqe.prepWrite ⟨tag, none⟩ reg (some e) fd iov offset false)
  ∧ prepOkTag (IoSqe.prepWrite ⟨tag, some rec⟩ reg (some e) fd iov offset b)
      = prepOkTag (IoSqe.prepWrite ⟨tag, none⟩ reg (some e) fd iov offset false)
  ∧ prepOkFlags (IoSqe.prepWrite ⟨tag, some rec⟩ reg (some e) fd iov offset b)
      = some IOSQE_FIXED_FILE
  ∧ prepOkFlags (IoSqe.prepWrite ⟨tag, none⟩ reg (some e) fd iov offset false)
      = some 0
  ∧ prepOkParams (IoSqe.prepRecvmsg ⟨tag, some rec⟩ reg (some e) fd msg b)
      = some (.recvmsg msg MSG_TRUNC)
  ∧ prepOkParams (IoSqe.prepRecvmsg ⟨tag, none⟩ reg (some e) fd msg false)
      = some (.recvmsg msg 0)
  ∧ prepOkTag (IoSqe.prepRecvmsg ⟨tag, some rec⟩ reg (some e) fd msg b)
      = prepOkTag (IoSqe.prepRecvmsg ⟨tag, none⟩ reg (some e) fd msg false)
  ∧ prepOkFlags (IoSqe.prepRecvmsg ⟨tag, some rec⟩ reg (some e) fd msg b)
      = some IOSQE_FIXED_FILE
  ∧ prepOkFlags (IoSqe.prepRecvmsg ⟨tag, none⟩ reg (some e) fd msg false)
      = some 0 := by
  simp [prepPollAdd_bound, prepPollAdd_raw, prepRead_bound, prepRead_raw,
    prepWrite_bound, prepWrite_raw, prepRecvmsg_bound, prepRecvmsg_raw,
    prepOkParams, prepOkTag, prepOkFlags, prepOkSqe, Op.params]

/-- C6: every prepare path (`prepPollAdd`, `prepRead`, `prepWrite`,
`prepRecvmsg`, `prepCancel`, and the vectored `processSubmit`s) stores the
preparing descriptor's own address in the entry's `user_data` tag. -/
theorem C6_userData_is_self (st : IoSqeState) (reg : FdRegistry) (e : Sqe)
    (fd : Int) (events msg : Nat) (iov : Iovec) (offset : Int) (b : Bool)
    (self target : Nat) (d : ReadWriteIoSqe) :
    prepOkTag (IoSqe.prepPollAdd st reg (some e) fd events b) = some st.self
  ∧ prepOkTag (IoSqe.prepRead st reg (some e) fd iov offset b) = some st.self
  ∧ prepOkTag (IoSqe.prepWrite st reg (some e) fd iov offset b) = some st.self
  ∧ prepOkTag (IoSqe.prepRecvmsg st reg (some e) fd msg b) = some st.self
  ∧ okTag (IoSqe.prepCancel self (some e) target) = some self
  ∧ okTag (ReadvIoSqe.processSubmit d (some e)) = some d.st.self
  ∧ okTag (WritevIoSqe.processSubmit d (some e)) = some d.st.self := by
  obtain ⟨tag, fr⟩ := st
  refine ⟨?_, ?_, ?_, ?_, rfl, rfl, rfl⟩ <;>
  · cases fr with
    | some rec =>
        simp [prepPollAdd_bound, prepRead_bound, prepWrite_bound,
          prepRecvmsg_bound, prepOkTag, prepOkSqe]
    | none =>
        cases b with
        | false =>
            simp [prepPollAdd_raw, prepRead_raw, prepWrite_raw,
              prepRecvmsg_raw, prepOkTag, prepOkSqe]
        | true =>
            rcases halloc : reg.alloc fd with ⟨a, reg'⟩
            cases a with
            | none =>
                simp [prepPollAdd_fallback _ _ _ _ _ _ halloc,
                  prepRead_fallback _ _ _ _ _ _ _ halloc,
                  prepWrite_fallback _ _ _ _ _ _ _ halloc,
                  prepRecvmsg_fallback _ _ _ _ _ _ halloc,
                  prepOkTag, prepOkSqe]
            | some rec =>
                simp [prepPollAdd_registered _ _ _ _ _ _ _ halloc,
                  prepRead_registered _ _ _ _ _ _ _ _ halloc,
                  prepWrite_registered _ _ _ _ _ _ _ _ halloc,
                  prepRecvmsg_registered _ _ _ _ _ _ _ halloc,
                  prepOkTag, prepOkSqe]

/-- C7 counterexample: `ReadvIoSqe::processSubmit` does not check the
entry for null before writing — on a null entry it dereferences it
(undefined behavior) instead of failing the fatal `CHECK`. -/
theorem C7_readv_no_null_check :
    ReadvIoSqe.processSubmit (ReadWriteIoSqe.mkVec 7 3 [⟨100, 4⟩] 0) none
      = .error .nullDeref
  ∧ ReadvIoSqe.processSubmit (ReadWriteIoSqe.mkVec 7 3 [⟨100, 4⟩] 0) none
      ≠ .error .checkFailed := by
  decide

/-- C7 (amended): the `IoSqe` prepare methods (`prepPollAdd`, `prepRead`,
`prepWrite`, `prepRecvmsg`, `prepCancel`) each check the entry for null
(`CHECK(entry)`, a fatal contract violation) before writing; but
`ReadvIoSqe::processSubmit` and `WritevIoSqe::processSubmit` write into
the entry with no null check, dereferencing a null entry. -/
theorem C7_null_entry_checks :
    (∀ (st : IoSqeState) (reg : FdRegistry) (fd : Int) (events : Nat) (b : Bool),
        IoSqe.prepPollAdd st reg none fd events b = .error .checkFailed)
  ∧ (∀ (st : IoSqeState) (reg : FdRegistry) (fd : Int) (iov : Iovec)
        (offset : Int) (b : Bool),
        IoSqe.prepRead st reg none fd iov offset b = .error .checkFailed)
  ∧ (∀ (st : IoSqeState) (reg : FdRegistry) (fd : Int) (iov : Iovec)
        (offset : Int) (b : Bool),
        IoSqe.prepWrite st reg none fd iov offset b = .error .checkFailed)
  ∧ (∀ (st : IoSqeState) (reg : FdRegistry) (fd : Int) (msg : Nat) (b : Bool),
        IoSqe.prepRecvmsg st reg none fd msg b = .error .checkFailed)
  ∧ (∀ (self target : Nat),
        IoSqe.prepCancel self none target = .error .checkFailed)
  ∧ (∀ d : ReadWriteIoSqe,
        ReadvIoSqe.processSubmit d none = .error .nullDeref)
  ∧ (∀ d : ReadWriteIoSqe,
        WritevIoSqe.processSubmit d none = .error .nullDeref) :=
  ⟨fun _ _ _ _ _ => rfl, fun _ _ _ _ _ _ => rfl, fun _ _ _ _ _ _ => rfl,
   fun _ _ _ _ _ => rfl, fun _ _ => rfl, fun _ => rfl, fun _ => rfl⟩

/-- C8 (code bug): `kNumInlineIoVec` is declared as 4, but `iov_` is
declared `folly::small_vector<struct iovec>` without the capacity
argument, so its inline capacity is the `small_vector` default of 1 and a
vectored operation with 2 iovecs already heap-allocates, contrary to the
claimed inline 1–4-iovec regime. -/
theorem C8_inline_capacity_mismatch :
    kNumInlineIoVec = 4
  ∧ iovInlineCapacity = 1
  ∧ iovInlineCapacity ≠ kNumInlineIoVec
  ∧ iovNeedsHeapAlloc 2 = true
  ∧ 2 ≤ kNumInlineIoVec := by
  decide

/-- C9: `prepCancel` writes an async-cancel operation addressed at the
target descriptor's tag, sets the entry's own tag to the cancel
descriptor itself, and the submitted cancel resolves nothing
synchronously: `cancelOne` only queues the entry — the invocation log and
the in-flight descriptors are untouched — and the entry carries only the
target's tag, not any callback of the target's owner. -/
theorem C9_prepCancel_targets_tag (self : Nat) (e : Sqe) (target : Nat)
    (bs : BackendState) :
    IoSqe.prepCancel self (some e) target =
      .ok { op := .cancel target 0, flags := 0, userData := self }
  ∧ (IoUringBackend.cancelOne bs self target).log = bs.log
  ∧ (IoUringBackend.cancelOne bs self target).inFlight = bs.inFlight
  ∧ (IoUringBackend.cancelOne bs self target).registry = bs.registry
  ∧ (IoUringBackend.cancelOne bs self target).pending =
      bs.pending ++ [{ op := .cancel target 0, flags := 0, userData := self }] :=
  ⟨rfl, rfl, rfl, rfl, rfl⟩

/-- C10: descriptors constructed by the facade's queue operations never use
the fixed-file path: `ReadIoSqe`/`WriteIoSqe` pass `registerFixed = false`
to `prepRead`/`prepWrite`, and on a freshly constructed descriptor the
entry targets the raw fd with no flag and the registration pool is left
untouched whatever its state; `ReadvIoSqe`/`WritevIoSqe` prepare the raw
fd directly without consulting the pool at all. -/
theorem C10_queue_ops_unregistered (tag : Nat) (fd : Int) (iov : Iovec)
    (iovs : List Iovec) (offset : Int) (reg : FdRegistry) (e : Sqe)
    (d : ReadWriteIoSqe) :
    ReadIoSqe.processSubmit d reg (some e) =
      IoSqe.prepRead d.st reg (some e) d.fd d.iov.headI d.offset false
  ∧ WriteIoSqe.processSubmit d reg (some e) =
      IoSqe.prepWrite d.st reg (some e) d.fd d.iov.headI d.offset false
  ∧ ReadIoSqe.processSubmit (ReadWriteIoSqe.mkSingle tag fd iov offset) reg
        (some e) =
      .ok ({ op := .read fd iov.iov_base iov.iov_len offset, flags := 0,
             userData := tag },
           ⟨tag, none⟩, reg)
  ∧ WriteIoSqe.processSubmit (ReadWriteIoSqe.mkSingle tag fd iov offset) reg
        (some e) =
      .ok ({ op := .write fd iov.iov_base iov.iov_len offset, flags := 0,
             userData := tag },
           ⟨tag, none⟩, reg)
  ∧ ReadvIoSqe.processSubmit (ReadWriteIoSqe.mkVec tag fd iovs offset)
        (some e) =
      .ok { op := .readv fd iovs offset, flags := 0, userData := tag }
  ∧ WritevIoSqe.processSubmit (ReadWriteIoSqe.mkVec tag fd iovs offset)
        (some e) =
      .ok { op := .writev fd iovs offset, flags := 0, userData := tag } := by
  refine ⟨rfl, rfl, ?_, ?_, rfl, rfl⟩ <;>
    simp [ReadIoSqe.processSubmit, WriteIoSqe.processSubmit,
      ReadWriteIoSqe.mkSingle, prepRead_raw, prepWrite_raw]

/-! Registration-pool lemmas. -/

theorem alloc_of_freeList_nil (r : FdRegistry) (fd : Int)
    (h : r.freeList = []) : r.alloc fd = (none, r) := by
  simp [FdRegistry.alloc, h]

theorem alloc_of_freeList_cons (r : FdRegistry) (fd : Int) (i : Nat)
    (rest : List Nat) (h : r.freeList = i :: rest) :
    r.alloc fd =
      (some ⟨i, fd⟩,
       { files := r.files.set i fd, slotInUse := r.slotInUse.set i true,
         freeList := rest, inUse := r.inUse + 1 }) := by
  simp [FdRegistry.alloc, h]

theorem free_of_inUse (r : FdRegistry) (rec : FdRegistrationRecord)
    (h : r.slotInUse[rec.idx]? = some true) :
    r.free rec =
      (true,
       { files := r.files.set rec.idx (-1),
         slotInUse := r.slotInUse.set rec.idx false,
         freeList := rec.idx :: r.freeList, inUse := r.inUse - 1 }) := by
  simp [FdRegistry.free, h]

theorem free_of_not_inUse (r : FdRegistry) (rec : FdRegistrationRecord)
    (h : r.slotInUse[rec.idx]? ≠ some true) : r.free rec = (false, r) := by
  rcases hv : r.slotInUse[rec.idx]? with _ | b
  · simp [FdRegistry.free, hv]
  · cases b
    · simp [FdRegistry.free, hv]
    · exact absurd hv h

/-- C5: a successful release pushes the slot back on the free list and
returns true, and releasing the same slot again without an intervening
allocation returns false and leaves the pool unchanged; a failed release
always leaves the pool unchanged. -/
theorem C5_release_double_free_guard (r : FdRegistry)
    (rec : FdRegistrationRecord) :
    ((r.free rec).1 = true →
        (r.free rec).2.freeList = rec.idx :: r.freeList
      ∧ (r.free rec).2.free rec = (false, (r.free rec).2))
  ∧ ((r.free rec).1 = false → (r.free rec).2 = r) := by
  by_cases h : r.slotInUse[rec.idx]? = some true
  · have hlt : rec.idx < r.slotInUse.length :=
      (List.getElem?_eq_some_iff.mp h).1
    have hfree := free_of_inUse r rec h
    have h2 : (r.slotInUse.set rec.idx false)[rec.idx]? = some false :=
      List.getElem?_set_self hlt
    constructor
    · intro _
      rw [hfree]
      exact ⟨rfl, free_of_not_inUse _ rec (by simp [h2])⟩
    · intro hfalse
      rw [hfree] at hfalse
      exact absurd hfalse (by simp)
  · have hfree := free_of_not_inUse r rec h
    rw [hfree]
    exact ⟨fun hc => absurd hc (by simp), fun _ => rfl⟩

/-- Witness for C5: in a one-slot pool whose only slot is live, releasing
slot 0 succeeds and the second release of the same slot fails without
changing the pool. -/
theorem C5_release_double_free_guard_witness :
    ((((FdRegistry.init 1).alloc 5).2.free ⟨0, 5⟩).1 = true
  ∧ ((((FdRegistry.init 1).alloc 5).2.free ⟨0, 5⟩).2.freeList
        = 0 :: ((FdRegistry.init 1).alloc 5).2.freeList
     ∧ ((((FdRegistry.init 1).alloc 5).2.free ⟨0, 5⟩).2.free ⟨0, 5⟩
        = (false, (((FdRegistry.init 1).alloc 5).2.free ⟨0, 5⟩).2)))) :=
  ⟨by decide,
   (C5_release_double_free_guard ((FdRegistry.init 1).alloc 5).2 ⟨0, 5⟩).1
     (by decide)⟩

/-- Iterated allocation returns the successive free-list entries while the
pool lasts, then null. -/
theorem allocResults_map_idx (fds : List Int) (r : FdRegistry) :
    (allocResults r fds).1.map allocIdx =
      (r.freeList.take fds.length).map some
        ++ List.replicate (fds.length - r.freeList.length) none := by
  induction fds generalizing r with
  | nil => simp [allocResults]
  | cons fd fds ih =>
      rcases hfl : r.freeList with _ | ⟨i, rest⟩
      · have halloc := alloc_of_freeList_nil r fd hfl
        simp [allocResults, halloc, allocIdx, hfl, ih, List.replicate_succ]
      · have halloc := alloc_of_freeList_cons r fd i rest hfl
        simp [allocResults, halloc, allocIdx, hfl, ih, Nat.succ_sub_succ]

/-- The pool state after iterated allocation: the free list loses its first
`fds.length` entries, and exactly the handed-out slots became live. -/
theorem allocResults_state (fds : List Int) (r : FdRegistry)
    (hb : ∀ i ∈ r.freeList, i < r.slotInUse.length) :
    (allocResults r fds).2.freeList = r.freeList.drop fds.length
  ∧ (allocResults r fds).2.slotInUse.length = r.slotInUse.length
  ∧ (∀ j, (allocResults r fds).2.slotInUse[j]? =
        if j ∈ r.freeList.take fds.length then some true
        else r.slotInUse[j]?) := by
  induction fds generalizing r with
  | nil => simp [allocResults]
  | cons fd fds ih =>
      rcases hfl : r.freeList with _ | ⟨i, rest⟩
      · have halloc := alloc_of_freeList_nil r fd hfl
        have := ih r hb
        rw [hfl] at this
        simp [allocResults, halloc, hfl, this.1, this.2.1, this.2.2]
      · have hi : i < r.slotInUse.length := hb i (by rw [hfl]; exact .head rest)
        have hb' : ∀ k ∈ rest, k < (r.slotInUse.set i true).length := by
          intro k hk
          rw [List.length_set]
          exact hb k (by rw [hfl]; exact .tail i hk)
        have hrec :=
          ih ⟨r.files.set i fd, r.slotInUse.set i true, rest, r.inUse + 1⟩ hb'
        have halloc := alloc_of_freeList_cons r fd i rest hfl
        simp only [allocResults, halloc]
        refine ⟨?_, ?_, ?_⟩
        · rw [hrec.1]
          simp [List.drop_succ_cons]
        · rw [hrec.2.1]
          simp [List.length_set]
        · intro j
          rw [hrec.2.2 j]
          simp only [List.length_cons, List.take_succ_cons, List.mem_cons]
          by_cases hjr : j ∈ rest.take fds.length
          · simp [hjr]
          · by_cases hji : j = i
            · subst hji
              simp [hjr, List.getElem?_set_self hi]
            · simp [hjr, hji, List.getElem?_set_ne (fun he => hji he.symm)]

/-- A freshly initialized pool is well formed. -/
theorem wf_init (n : Nat) : (FdRegistry.init n).wf := by
  refine ⟨List.nodup_range n, ?_, ?_⟩ <;>
    · intro i hi
      simp only [FdRegistry.init, List.mem_range] at hi
      simp [FdRegistry.init, hi]

/-- A successful allocation hands out a slot that was free, marks it live,
and preserves well-formedness: no slot ever has two simultaneous live
owners. -/
theorem alloc_issues_free_slot (r : FdRegistry) (fd : Int)
    (rec : FdRegistrationRecord) (r' : FdRegistry) (hwf : r.wf)
    (h : r.alloc fd = (some rec, r')) :
    r.slotInUse[rec.idx]? = some false
  ∧ r'.slotInUse[rec.idx]? = some true
  ∧ r'.wf := by
  obtain ⟨hnd, hb, hfree⟩ := hwf
  rcases hfl : r.freeList with _ | ⟨i, rest⟩
  · rw [alloc_of_freeList_nil r fd hfl] at h
    exact absurd (congrArg Prod.fst h) (by simp)
  · rw [alloc_of_freeList_cons r fd i rest hfl] at h
    have h1 := congrArg Prod.fst h
    have h2 := congrArg Prod.snd h
    simp only at h1 h2
    obtain rfl := Option.some.inj h1
    subst h2
    have himem : i ∈ r.freeList := by rw [hfl]; exact .head rest
    have hilt : i < r.slotInUse.length := hb i himem
    have hnodup := List.nodup_cons.mp (hfl ▸ hnd)
    refine ⟨hfree i himem, List.getElem?_set_self hilt, hnodup.2, ?_, ?_⟩
    · intro k hk
      simp only [List.length_set]
      exact hb k (by rw [hfl]; exact .tail i hk)
    · intro k hk
      have hik : i ≠ k := fun he => hnodup.1 (he ▸ hk)
      simp only
      rw [List.getElem?_set_ne hik]
      exact hfree k (by rw [hfl]; exact .tail i hk)

/-- Releasing a slot preserves well-formedness of the pool. -/
theorem free_preserves_wf (r : FdRegistry) (rec : FdRegistrationRecord)
    (hwf : r.wf) : ((r.free rec).2).wf := by
  obtain ⟨hnd, hb, hfree⟩ := hwf
  by_cases h : r.slotInUse[rec.idx]? = some true
  · have hlt : rec.idx < r.slotInUse.length :=
      (List.getElem?_eq_some_iff.mp h).1
    rw [free_of_inUse r rec h]
    have hnotmem : rec.idx ∉ r.freeList := by
      intro hm
      have hcontr := hfree rec.idx hm
      rw [h] at hcontr
      exact absurd hcontr (by simp)
    refine ⟨List.nodup_cons.mpr ⟨hnotmem, hnd⟩, ?_, ?_⟩
    · intro k hk
      simp only [List.length_set]
      rcases List.mem_cons.mp hk with rfl | hk'
      · exact hlt
      · exact hb k hk'
    · intro k hk
      rcases List.mem_cons.mp hk with rfl | hk'
      · exact List.getElem?_set_self hlt
      · have hne : rec.idx ≠ k := by
          intro he
          rw [he, hfree k hk'] at h
          exact absurd h (by simp)
        simp only
        rw [List.getElem?_set_ne hne]
        exact hfree k hk'
  · rw [free_of_not_inUse r rec h]
    exact ⟨hnd, hb, hfree⟩

/-- C4: from a pool of capacity `N` starting empty, the first `N`
allocations return the distinct slots `0, …, N-1`, the `(N+1)`th returns
null; releasing the first issued slot (index 0) makes exactly one further
allocation succeed (returning slot 0) and the one after that fail; a
freshly initialized pool is well formed, and a well-formed pool only ever
issues a slot that is currently free, so no slot has two simultaneous
live owners. -/
theorem C4_pool_exhaustion (N : Nat) (fds : List Int) (hN : 0 < N)
    (hlen : fds.length = N + 1) (f fd fd2 : Int) :
    (allocResults (FdRegistry.init N) fds).1.map allocIdx
        = (List.range N).map some ++ [none]
  ∧ (((allocResults (FdRegistry.init N) fds).1.map allocIdx).take N).Nodup
  ∧ ((allocResults (FdRegistry.init N) fds).2.free ⟨0, f⟩).1 = true
  ∧ (((allocResults (FdRegistry.init N) fds).2.free ⟨0, f⟩).2.alloc fd).1
        = some ⟨0, fd⟩
  ∧ ((((allocResults (FdRegistry.init N) fds).2.free ⟨0, f⟩).2.alloc fd).2.alloc
        fd2).1 = none
  ∧ (FdRegistry.init N).wf
  ∧ (∀ (r : FdRegistry) (g : Int) (rec : FdRegistrationRecord)
        (r' : FdRegistry), r.wf → r.alloc g = (some rec, r') →
        r.slotInUse[rec.idx]? = some false
      ∧ r'.slotInUse[rec.idx]? = some true
      ∧ r'.wf) := by
  have hfl0 : (FdRegistry.init N).freeList = List.range N := rfl
  have hb0 : ∀ i ∈ (FdRegistry.init N).freeList,
      i < (FdRegistry.init N).slotInUse.length := by
    intro i hi
    rw [hfl0, List.mem_range] at hi
    simpa [FdRegistry.init] using hi
  have hstate := allocResults_state fds (FdRegistry.init N) hb0
  have hmap := allocResults_map_idx fds (FdRegistry.init N)
  have hi1 : (allocResults (FdRegistry.init N) fds).1.map allocIdx
      = (List.range N).map some ++ [none] := by
    rw [hmap, hfl0, hlen]
    rw [List.take_of_length_le (by simp)]
    simp [List.replicate_succ]
  have hflN : (allocResults (FdRegistry.init N) fds).2.freeList = [] := by
    rw [hstate.1, hfl0, hlen]
    exact List.drop_eq_nil_of_le (by simp)
  have hs0 : (allocResults (FdRegistry.init N) fds).2.slotInUse[0]?
      = some true := by
    rw [hstate.2.2 0, hfl0, hlen]
    rw [List.take_of_length_le (by simp)]
    simp [List.mem_range, hN]
  have hfree := free_of_inUse (allocResults (FdRegistry.init N) fds).2 ⟨0, f⟩ hs0
  have hflR2 : ((allocResults (FdRegistry.init N) fds).2.free ⟨0, f⟩).2.freeList
      = [0] := by
    rw [hfree]
    simp [hflN]
  have halloc2 :=
    alloc_of_freeList_cons ((allocResults (FdRegistry.init N) fds).2.free
      ⟨0, f⟩).2 fd 0 [] hflR2
  have hflR3 : (((allocResults (FdRegistry.init N) fds).2.free
      ⟨0, f⟩).2.alloc fd).2.freeList = [] := by
    rw [halloc2]
  refine ⟨hi1, ?_, ?_, ?_, ?_, wf_init N, ?_⟩
  · rw [hi1, List.take_left' (by simp)]
    exact List.Nodup.map (Option.some_injective Nat) (List.nodup_range N)
  · rw [hfree]
  · rw [halloc2]
  · rw [alloc_of_freeList_nil _ fd2 hflR3]
  · intro r g rec r' hwf h
    exact alloc_issues_free_slot r g rec r' hwf h

/-- Witness for C4 at `N = 2`: three allocations from a two-slot pool
yield slots 0, 1, then null. -/
theorem C4_pool_exhaustion_witness :
    (0 < 2 ∧ ([5, 6, 7] : List Int).length = 2 + 1)
  ∧ (allocResults (FdRegistry.init 2) [5, 6, 7]).1.map allocIdx
        = (List.range 2).map some ++ [none]
  ∧ ((allocResults (FdRegistry.init 2) [5, 6, 7]).2.free ⟨0, 9⟩).1 = true
  ∧ (((allocResults (FdRegistry.init 2) [5, 6, 7]).2.free ⟨0, 9⟩).2.alloc 8).1
        = some ⟨0, 8⟩
  ∧ ((((allocResults (FdRegistry.init 2) [5, 6, 7]).2.free ⟨0, 9⟩).2.alloc
        8).2.alloc 4).1 = none :=
  ⟨⟨by decide, by decide⟩,
   (C4_pool_exhaustion 2 [5, 6, 7] (by decide) (by decide) 9 8 4).1,
   (C4_pool_exhaustion 2 [5, 6, 7] (by decide) (by decide) 9 8 4).2.2.1,
   (C4_pool_exhaustion 2 [5, 6, 7] (by decide) (by decide) 9 8 4).2.2.2.1,
   (C4_pool_exhaustion 2 [5, 6, 7] (by decide) (by decide) 9 8 4).2.2.2.2.1⟩

/-- `queueRead` appends the new descriptor and its raw-fd entry; the pool
and the invocation log are untouched. -/
theorem queueRead_eq (bs : BackendState) (tag : Nat) (fd : Int)
    (buf nbytes : Nat) (offset : Int) :
    IoUringBackend.queueRead bs tag fd buf nbytes offset =
      { bs with
        inFlight := bs.inFlight
          ++ [ReadWriteIoSqe.mkSingle tag fd ⟨buf, nbytes⟩ offset]
        pending := bs.pending
          ++ [{ op := .read fd buf nbytes offset, flags := 0, userData := tag }] } := by
  simp [IoUringBackend.queueRead, ReadIoSqe.processSubmit,
    ReadWriteIoSqe.mkSingle, prepRead_raw]

/-- Draining completions with no in-flight descriptors changes nothing. -/
theorem drainCompletions_no_inFlight (reg : FdRegistry) (p : List Sqe)
    (l : List (Nat × Int)) (cs : List (Nat × Int)) :
    IoUringBackend.drainCompletions ⟨reg, [], p, l⟩ cs = ⟨reg, [], p, l⟩ := by
  induction cs with
  | nil => rfl
  | cons c cs ih =>
      show IoUringBackend.drainCompletions
        (IoUringBackend.processCompletion ⟨reg, [], p, l⟩ c) cs = _
      rw [show IoUringBackend.processCompletion ⟨reg, [], p, l⟩ c
            = ⟨reg, [], p, l⟩ from rfl]
      exact ih

/-- With a single in-flight descriptor tagged `tag`, draining any
completion sequence whose first `tag`-completion carries result `r`
invokes the callback exactly once, with `r`, and destroys the
descriptor. -/
theorem drainCompletions_single (cs : List (Nat × Int)) (reg : FdRegistry)
    (p : List Sqe) (l : List (Nat × Int)) (d : ReadWriteIoSqe) (tag : Nat)
    (r : Int) (hd : d.st.self = tag)
    (hfind : cs.find? (fun x => x.1 == tag) = some (tag, r)) :
    (IoUringBackend.drainCompletions ⟨reg, [d], p, l⟩ cs).log = l ++ [(tag, r)]
  ∧ (IoUringBackend.drainCompletions ⟨reg, [d], p, l⟩ cs).inFlight = [] := by
  induction cs generalizing l with
  | nil => simp at hfind
  | cons c cs ih =>
      by_cases hc : c.1 = tag
      · have hceq : c = (tag, r) := by
          rw [List.find?_cons_of_pos _ (by simp [hc])] at hfind
          exact Option.some.inj hfind
        subst hceq
        have hproc : IoUringBackend.processCompletion ⟨reg, [d], p, l⟩ (tag, r)
            = ⟨reg, [], p, l ++ [(tag, r)]⟩ := by
          simp [IoUringBackend.processCompletion, hd,
            ReadWriteIoSqe.processActive]
        show (IoUringBackend.drainCompletions
            (IoUringBackend.processCompletion ⟨reg, [d], p, l⟩ (tag, r)) cs).log
              = _
          ∧ (IoUringBackend.drainCompletions
            (IoUringBackend.processCompletion ⟨reg, [d], p, l⟩ (tag, r))
              cs).inFlight = _
        rw [hproc, drainCompletions_no_inFlight]
        exact ⟨rfl, rfl⟩
      · have hstep : IoUringBackend.processCompletion ⟨reg, [d], p, l⟩ c
            = ⟨reg, [d], p, l⟩ := by
          simp [IoUringBackend.processCompletion, hd, hc, Ne.symm hc]
        have hfind' : cs.find? (fun x => x.1 == tag) = some (tag, r) := by
          rwa [List.find?_cons_of_neg _ (by simp [hc])] at hfind
        show (IoUringBackend.drainCompletions
            (IoUringBackend.processCompletion ⟨reg, [d], p, l⟩ c) cs).log = _
          ∧ (IoUringBackend.drainCompletions
            (IoUringBackend.processCompletion ⟨reg, [d], p, l⟩ c) cs).inFlight
              = _
        rw [hstep]
        exact ih l hfind'

/-- C3: queueing a read and draining the completions invokes the supplied
callback exactly once, with the stored signed result of the first
completion for the descriptor's tag (later completions with the same tag
find no live descriptor and are dropped); the result is a non-negative
count at most `nbytes` or a negative error code, and the descriptor is
destroyed afterwards. -/
theorem C3_queueRead_callback_once (reg : FdRegistry) (tag : Nat) (fd : Int)
    (buf nbytes : Nat) (offset : Int) (cs : List (Nat × Int)) (r : Int)
    (hfind : cs.find? (fun x => x.1 == tag) = some (tag, r))
    (hres : r < 0 ∨ (0 ≤ r ∧ r ≤ (nbytes : Int))) :
    (IoUringBackend.drainCompletions
        (IoUringBackend.queueRead ⟨reg, [], [], []⟩ tag fd buf nbytes offset)
        cs).log = [(tag, r)]
  ∧ (IoUringBackend.drainCompletions
        (IoUringBackend.queueRead ⟨reg, [], [], []⟩ tag fd buf nbytes offset)
        cs).inFlight = []
  ∧ (r < 0 ∨ (0 ≤ r ∧ r ≤ (nbytes : Int))) := by
  rw [queueRead_eq]
  simp only [List.nil_append]
  have hsingle := drainCompletions_single cs reg
    [{ op := .read fd buf nbytes offset, flags := 0, userData := tag }] []
    (ReadWriteIoSqe.mkSingle tag fd ⟨buf, nbytes⟩ offset) tag r rfl hfind
  exact ⟨by simpa using hsingle.1, hsingle.2, hres⟩

/-- Witness for C3: one queued read, completions for a foreign tag and two
for our tag; the callback fires once with the first result, 3 ≤ 4. -/
theorem C3_queueRead_callback_once_witness :
    (([(5, 9), (7, 3), (7, -2)] : List (Nat × Int)).find?
        (fun x => x.1 == 7) = some (7, 3)
     ∧ ((3 : Int) < 0 ∨ ((0 : Int) ≤ 3 ∧ (3 : Int) ≤ ((4 : Nat) : Int))))
  ∧ (IoUringBackend.drainCompletions
        (IoUringBackend.queueRead ⟨FdRegistry.init 0, [], [], []⟩ 7 3 1000 4 0)
        [(5, 9), (7, 3), (7, -2)]).log = [(7, 3)] :=
  ⟨⟨by decide, by decide⟩,
   (C3_queueRead_callback_once (FdRegistry.init 0) 7 3 1000 4 0
      [(5, 9), (7, 3), (7, -2)] 3 (by decide) (by decide)).1⟩

end IoUring
